import Mathlib

/-
Shallow embedding of src/ihandler/handler.go (package ihandler of
bluelamar/http-interceptor-go).

Modelling conventions:
- Byte slices are modelled as `String` (one character per byte); a captured
  body chunk is a `String`, and the real sink's written body is the `String`
  of all bytes written so far.
- The real `http.ResponseWriter` is modelled by `Sink`: its header map is a
  list of (name, value) pairs in insertion order (`Header().Add` appends),
  `WriteHeader` calls are recorded in order in `statusCalls`, and `Write`
  appends to `body`.  Whether a given sink `Write` call fails is external
  behaviour of the transport; it is modelled by the oracle list `failPlan`
  consumed one entry per `Write` call (a failing write delivers nothing and
  returns n = 0 with a non-nil error).
- The request is opaque to the pipeline (passed through unmodified), so it is
  modelled as a bare `Nat` tag that callbacks may inspect.
- A callback (authorizer, user handler, response monitor) is an arbitrary Go
  function that can act on the request-visible mutable state reachable
  through the `InterceptResponseWriterI` receiver: the `*respBytes` chunk
  buffer and the bound real sink.  That state is `WState`, and callbacks are
  embedded as arbitrary Lean functions on it.  A monitor additionally
  receives the `respBytes *[][]byte` pointer itself; since that pointer
  aliases the buffer in `WState`, mutation through it is mutation of
  `WState.respBytes`.
- The `interceptResponseWriter` struct fields that persist across requests
  (userHandler, authorizers, respMonitors, and the respBytes buffer, which
  `New` allocates once and `HandleFunc` never clears) form `Pipeline`.
  `HandleFunc` binds a fresh sink (`i.rw = w`) per invocation and returns the
  updated `Pipeline`, the final sink, and the log lines emitted through
  `i.logger` (the logger itself is an opaque external collaborator).
-/

namespace Ihandler

/-- A body chunk: one `[]byte` value, one character per byte. -/
abbrev Chunk := String

/-- The opaque incoming `*http.Request`, never parsed or mutated by the core. -/
abbrev Req := Nat

/-- The error text of the sink's failed `Write` (external transport detail). -/
def sinkWriteErr : String := "sink write failed"

/-- The real `http.ResponseWriter` (external collaborator). -/
structure Sink where
  headers : List (String × String)
  statusCalls : List Nat
  body : String
  failPlan : List Bool
  deriving Repr, DecidableEq

/-- The real sink's body write.  Each call consumes one entry of the failure
oracle `failPlan`; an entry `true` makes that call fail (nothing delivered,
n = 0, non-nil error), otherwise the bytes are appended to the wire. -/
def Sink.write (s : Sink) (b : Chunk) : Sink × (Nat × Option String) :=
  match s.failPlan with
  | true :: rest => ({ s with failPlan := rest }, (0, some sinkWriteErr))
  | false :: rest => ({ s with failPlan := rest, body := s.body ++ b }, (b.length, none))
  | [] => ({ s with body := s.body ++ b }, (b.length, none))

/-- The per-request mutable state reachable through the
`interceptResponseWriter` receiver: the `*respBytes` buffer and the bound
real sink `rw`. -/
structure WState where
  respBytes : List Chunk
  sink : Sink
  deriving Repr, DecidableEq

/-- Go: `type AuthorizerFunc func(w, r) (error, int, string)`.  The `error`
is modelled as `Option String` carrying the text of `err.Error()`
(`none` = nil = allow). -/
abbrev AuthorizerFunc := WState → Req → WState × (Option String × Nat × String)

/-- Go: `type UserHandlerFunc func(InterceptResponseWriterI, *http.Request)`. -/
abbrev UserHandlerFunc := WState → Req → WState

/-- Go: `type PostResponseFunc func(w, r, respBytes *[][]byte)`; the chunk
pointer aliases `WState.respBytes`, so the monitor acts on the full state. -/
abbrev PostResponseFunc := WState → Req → WState

/-- The `interceptResponseWriter` struct state that persists across requests
(everything but the per-request `rw` binding and the external logger). -/
structure Pipeline where
  userHandler : UserHandlerFunc
  authorizers : List AuthorizerFunc
  respMonitors : List PostResponseFunc
  respBytes : List Chunk

/-- Go `New`: allocates the (empty) respBytes buffer once and registers the
optional construction-time authorizer and monitor (a nil argument registers
nothing).  The logger argument is an opaque collaborator and is elided. -/
def New (userHandler : UserHandlerFunc) (authorizer : Option AuthorizerFunc)
    (userRespMonitor : Option PostResponseFunc) : Pipeline :=
  let authFuncs : List AuthorizerFunc :=
    match authorizer with
    | none => []
    | some a => [a]
  let respFuncs : List PostResponseFunc :=
    match userRespMonitor with
    | none => []
    | some m => [m]
  { userHandler := userHandler
    authorizers := authFuncs
    respMonitors := respFuncs
    respBytes := [] }

/-- Go `Header`: returns `i.rw.Header()`, the real sink's own header
collection, directly. -/
def Header (ws : WState) : List (String × String) :=
  ws.sink.headers

/-- Go `WriteHeader`: forwards `statusCode` straight to `i.rw.WriteHeader`. -/
def WriteHeader (ws : WState) (statusCode : Nat) : WState :=
  { ws with sink := { ws.sink with statusCalls := ws.sink.statusCalls ++ [statusCode] } }

/-- Go `Write`: `(*i.respBytes) = append((*i.respBytes), b); return len(b), nil`. -/
def Write (ws : WState) (b : Chunk) : WState × (Nat × Option String) :=
  ({ ws with respBytes := ws.respBytes ++ [b] }, (b.length, none))

/-- Header-map `Add` (net/http `Header().Add`): appends, never replaces. -/
def hdrAdd (hs : List (String × String)) (name v : String) : List (String × String) :=
  hs ++ [(name, v)]

/-- Header-map `Del`: removes every value of the name. -/
def hdrDel (hs : List (String × String)) (name : String) : List (String × String) :=
  hs.filter (fun kv => kv.1 != name)

/-- Header-map `Set`: replaces all values of the name with the one value. -/
def hdrSet (hs : List (String × String)) (name v : String) : List (String × String) :=
  hdrAdd (hdrDel hs name) name v

/-- Go `SetCookie`: `http.SetCookie(i.rw, cookie)`.  The cookie is modelled
by its serialized text (`cookie.String()`); net/http adds a `Set-Cookie`
header only when that serialization is non-empty. -/
def SetCookie (ws : WState) (cookie : String) : WState :=
  if cookie = "" then ws
  else { ws with sink := { ws.sink with headers := hdrAdd ws.sink.headers "Set-Cookie" cookie } }

/-- Go `AddHeader`: `i.rw.Header().Add(name, value)`. -/
def AddHeader (ws : WState) (name v : String) : WState :=
  { ws with sink := { ws.sink with headers := hdrAdd ws.sink.headers name v } }

/-- Go `WithPre`: a nil argument is ignored, otherwise append to
`i.authorizers`; returns the (same) pipeline for chaining. -/
def WithPre (i : Pipeline) (af : Option AuthorizerFunc) : Pipeline :=
  match af with
  | none => i
  | some f => { i with authorizers := i.authorizers ++ [f] }

/-- Go `WithPost`: a nil argument is ignored, otherwise append to
`i.respMonitors`; returns the (same) pipeline for chaining. -/
def WithPost (i : Pipeline) (pr : Option PostResponseFunc) : Pipeline :=
  match pr with
  | none => i
  | some f => { i with respMonitors := i.respMonitors ++ [f] }

/-- The log line of `i.logger.Errorf` for a failed authorizer. -/
def authFailLog (e : String) : String :=
  "interceptor:HandleFunc: authorizer failed: error=" ++ e ++ "\n"

/-- The log line of `i.logger.Errorf` for a failed flush write. -/
def flushFailLog (n : Nat) (e : String) : String :=
  "interceptor:HandleFunc: n=" ++ toString n ++ " failed: error=" ++ e ++ "\n"

/-- net/http `Error(w, error, code)`: deletes Content-Length, sets
Content-Type and X-Content-Type-Options, calls `WriteHeader(code)`, then
`fmt.Fprintln(w, error)` writes the message followed by a newline through the
sink's own `Write`. -/
def httpError (s : Sink) (msg : String) (code : Nat) : Sink :=
  let hs := hdrSet (hdrSet (hdrDel s.headers "Content-Length")
      "Content-Type" "text/plain; charset=utf-8") "X-Content-Type-Options" "nosniff"
  (Sink.write { s with headers := hs, statusCalls := s.statusCalls ++ [code] }
    (msg ++ "\n")).1

/-- The authorizer loop of `HandleFunc` (lines 148-161): run each authorizer
in order; on the first non-nil error stop, substituting `err.Error()` for an
empty message.  The deny result carries (final message, status code,
error text). -/
def runAuthorizers : List AuthorizerFunc → WState → Req → WState × Option (String × Nat × String)
  | [], ws, _ => (ws, none)
  | af :: rest, ws, r =>
    match af ws r with
    | (ws', (some e, code, msg)) => (ws', some ((if msg = "" then e else msg), code, e))
    | (ws', (none, _, _)) => runAuthorizers rest ws' r

/-- The monitor loop of `HandleFunc` (lines 165-167): every registered
monitor runs, in order, on the live state. -/
def runMonitors (ms : List PostResponseFunc) (ws : WState) (r : Req) : WState :=
  ms.foldl (fun st m => m st r) ws

/-- The flush loop of `HandleFunc` (lines 169-175): write each captured chunk
to the real sink in order; on the first write error log it and return. -/
def flushChunks : Sink → List String → List Chunk → Sink × List String
  | s, lg, [] => (s, lg)
  | s, lg, chunk :: rest =>
    match Sink.write s chunk with
    | (s', (_, none)) => flushChunks s' lg rest
    | (s', (n, some e)) => (s', lg ++ [flushFailLog n e])

/-- Go `HandleFunc` (lines 145-176): bind the sink, run the authorizer chain
(denial emits `http.Error` and returns), run the user handler, run the
monitors, flush the captured chunks.  Returns the pipeline state after the
request (note: `respBytes` is never cleared), the final sink, and the log. -/
def HandleFunc (p : Pipeline) (w : Sink) (r : Req) : Pipeline × Sink × List String :=
  let ws0 : WState := { respBytes := p.respBytes, sink := w }
  match runAuthorizers p.authorizers ws0 r with
  | (ws1, some (m, code, e)) =>
    ({ p with respBytes := ws1.respBytes }, httpError ws1.sink m code, [authFailLog e])
  | (ws1, none) =>
    let ws2 := p.userHandler ws1 r
    let ws3 := runMonitors p.respMonitors ws2 r
    let fr := flushChunks ws3.sink [] ws3.respBytes
    ({ p with respBytes := ws3.respBytes }, fr.1, fr.2)

/-- Concatenation of a chunk sequence, in order. -/
def concatChunks : List Chunk → String
  | [] => ""
  | c :: cs => c ++ concatChunks cs

/-- A sink with nothing written and no write failures scheduled. -/
def emptySink : Sink :=
  { headers := [], statusCalls := [], body := "", failPlan := [] }

end Ihandler
namespace Ihandler

/-- A flush over a sink with no scheduled write failures delivers every
captured chunk, concatenated in order, and logs nothing. -/
theorem flushChunks_ok (cs : List Chunk) : ∀ (s : Sink) (lg : List String),
    s.failPlan = [] →
    flushChunks s lg cs = ({ s with body := s.body ++ concatChunks cs }, lg) := by
  induction cs with
  | nil =>
    intro s lg _
    simp [flushChunks, concatChunks]
  | cons c cs ih =>
    intro s lg h
    rw [flushChunks, Sink.write, h]
    simp only []
    rw [ih _ lg (by simp [h])]
    simp [concatChunks, String.append_assoc]

/-- Splitting the authorizer chain at the first denier: once every authorizer
of `pre` allows and `af` denies, the loop stops at `af` with its outcome and
the authorizers in `rest` are never consulted. -/
theorem runAuthorizers_deny_append (pre : List AuthorizerFunc) :
    ∀ (rest : List AuthorizerFunc) (af : AuthorizerFunc) (ws ws1 ws2 : WState) (r : Req)
      (e : String) (code : Nat) (msg : String),
    runAuthorizers pre ws r = (ws1, none) →
    af ws1 r = (ws2, (some e, code, msg)) →
    runAuthorizers (pre ++ af :: rest) ws r
      = (ws2, some ((if msg = "" then e else msg), code, e)) := by
  induction pre with
  | nil =>
    intro rest af ws ws1 ws2 r e code msg hpre hdeny
    simp [runAuthorizers] at hpre
    subst hpre
    simp [runAuthorizers, hdeny]
  | cons a pre ih =>
    intro rest af ws ws1 ws2 r e code msg hpre hdeny
    rcases h : a ws r with ⟨ws', err, code', msg'⟩
    cases err with
    | some e' =>
      rw [runAuthorizers, h] at hpre
      simp at hpre
    | none =>
      rw [runAuthorizers, h] at hpre
      rw [List.cons_append, runAuthorizers, h]
      exact ih rest af ws' ws1 ws2 r e code msg hpre hdeny

/-- The deny path of `HandleFunc`: the final response is the standard error
response on the sink as the denying authorizer left it, plus one log line. -/
theorem HandleFunc_deny (p : Pipeline) (w : Sink) (r : Req) (ws1 : WState)
    (m : String) (code : Nat) (e : String)
    (hdeny : runAuthorizers p.authorizers ⟨p.respBytes, w⟩ r = (ws1, some (m, code, e))) :
    HandleFunc p w r
      = ({ p with respBytes := ws1.respBytes }, httpError ws1.sink m code, [authFailLog e]) := by
  rw [HandleFunc]
  rw [show ({ respBytes := p.respBytes, sink := w } : WState) = ⟨p.respBytes, w⟩ from rfl]
  rw [hdeny]

/-- The allow path of `HandleFunc`: handler, then the monitor fold, then the
flush of the post-monitor chunk sequence. -/
theorem HandleFunc_allow (p : Pipeline) (w : Sink) (r : Req) (ws1 : WState)
    (hallow : runAuthorizers p.authorizers ⟨p.respBytes, w⟩ r = (ws1, none)) :
    HandleFunc p w r
      = ({ p with respBytes := (runMonitors p.respMonitors (p.userHandler ws1 r) r).respBytes },
         (flushChunks (runMonitors p.respMonitors (p.userHandler ws1 r) r).sink []
            (runMonitors p.respMonitors (p.userHandler ws1 r) r).respBytes).1,
         (flushChunks (runMonitors p.respMonitors (p.userHandler ws1 r) r).sink []
            (runMonitors p.respMonitors (p.userHandler ws1 r) r).respBytes).2) := by
  rw [HandleFunc]
  rw [show ({ respBytes := p.respBytes, sink := w } : WState) = ⟨p.respBytes, w⟩ from rfl]
  rw [hallow]

/-- A fold over monitors that do not touch the chunk buffer leaves the chunk
buffer unchanged. -/
theorem runMonitors_preserve (pre : List PostResponseFunc) :
    ∀ (ws : WState) (r : Req),
    (∀ mm ∈ pre, ∀ st, (mm st r).respBytes = st.respBytes) →
    (runMonitors pre ws r).respBytes = ws.respBytes := by
  induction pre with
  | nil => intro ws r _; rfl
  | cons m pre ih =>
    intro ws r h
    have h1 : (runMonitors (m :: pre) ws r) = runMonitors pre (m ws r) r := rfl
    rw [h1, ih (m ws r) r (fun mm hmm st => h mm (List.mem_cons_of_mem _ hmm) st)]
    exact h m (List.mem_cons_self _ _) ws

/-- Chained `WithPre` registrations append in call order. -/
theorem withPre_foldl (as : List AuthorizerFunc) : ∀ (p : Pipeline),
    (List.foldl (fun q a => WithPre q (some a)) p as).authorizers = p.authorizers ++ as := by
  induction as with
  | nil => intro p; simp
  | cons a as ih =>
    intro p
    rw [List.foldl_cons, ih]
    simp [WithPre]

/-- On a sink with no scheduled failure, the error response appends the
message followed by a newline to the wire and records the status code. -/
theorem httpError_ok (s : Sink) (m : String) (code : Nat) (h : s.failPlan = []) :
    (httpError s m code).body = s.body ++ (m ++ "\n")
    ∧ (httpError s m code).statusCalls = s.statusCalls ++ [code] := by
  rw [httpError, Sink.write]
  simp [h]

end Ihandler
namespace Ihandler

/-- A user handler writing one fixed chunk per request: chunk a for request
0, chunk b otherwise. -/
def hSeq (a b : Chunk) : UserHandlerFunc := fun ws r => (Write ws (if r = 0 then a else b)).1

/-- Pipeline of claim C1's failing input: no authorizer, no monitor. -/
def pC1 : Pipeline := New (hSeq "a" "b") none none

/-- Pipeline of claim C2's failing input: no authorizer, no monitor. -/
def pC2 : Pipeline := New (hSeq "x" "y") none none

/-- An authorizer that always denies with cause text, status 401, message m. -/
def denyAuthM : AuthorizerFunc := fun ws _ => (ws, (some "cause", 401, "m"))

/-- An authorizer that always allows. -/
def allowAuth : AuthorizerFunc := fun ws _ => (ws, (none, 0, ""))

/-- A user handler that does nothing. -/
def hNop : UserHandlerFunc := fun ws _ => ws

/-- Pipeline with a single always-denying authorizer. -/
def pC3 : Pipeline := New hNop (some denyAuthM) none

/-- A user handler that writes the single chunk hi. -/
def hHello : UserHandlerFunc := fun ws _ => (Write ws "hi").1

/-- A monitor that only adds a header (chunk-preserving). -/
def monHdr1 : PostResponseFunc := fun st _ => AddHeader st "X-Seen" "1"

/-- A second header-only monitor. -/
def monHdr2 : PostResponseFunc := fun st _ => AddHeader st "X-Seen" "2"

/-- Pipeline with two registered monitors and no authorizer. -/
def pC6 : Pipeline := WithPost (WithPost (New hHello none none) (some monHdr1)) (some monHdr2)

/-- A monitor that appends one chunk through the respBytes pointer, as in Go
code doing an append on the dereferenced pointer argument. -/
def appendChunkMon (c : Chunk) : PostResponseFunc :=
  fun st _ => { st with respBytes := st.respBytes ++ [c] }

/-- A sink whose second body write fails. -/
def failSink : Sink := { headers := [], statusCalls := [], body := "", failPlan := [false, true] }

/-- Claim C1 (code bug): the Captured Response is NOT empty at the start of
every HandleFunc invocation.  After a first request whose handler wrote chunk
a, the pipeline still holds that chunk, and a second request's flush delivers
the first request's chunk ahead of its own: the second sink receives ab, not
b. -/
theorem C1_buffer_not_reset :
    (HandleFunc pC1 emptySink 0).1.respBytes = ["a"]
    ∧ (HandleFunc (HandleFunc pC1 emptySink 0).1 emptySink 1).2.1.body = "ab"
    ∧ ("ab" : String) ≠ "b" := ⟨rfl, rfl, by decide⟩

/-- Claim C2 (code bug): on the second all-allow request through one
pipeline, the handler's own writes are exactly the chunk y, yet the real sink
receives xy — the stale first-request chunk is delivered too, so the
delivered bytes are not the handler's Write arguments for that request. -/
theorem C2_stale_delivery :
    (hSeq "x" "y" ⟨[], emptySink⟩ 1).respBytes = ["y"]
    ∧ (HandleFunc (HandleFunc pC2 emptySink 0).1 emptySink 1).2.1.body = "xy"
    ∧ ("xy" : String) ≠ "y" := ⟨rfl, rfl, by decide⟩

/-- Claim C3, counterexample to the literal wording: on denial with message
m, the body delivered to the real sink is the message followed by a newline
(net/http's Error writes via Fprintln), so it is not equal to the message. -/
theorem C3_counterexample :
    (HandleFunc pC3 emptySink 0).2.1.body = "m\n"
    ∧ (HandleFunc pC3 emptySink 0).2.1.body ≠ "m" := ⟨rfl, by decide⟩

/-- Claim C3 (amended): when an executed authorizer denies, the user handler
and the monitors never run (the outcome is the same for every handler and
every monitor list), and the response uses the authorizer's status code with
the returned message — or the error cause's text if the message is empty —
followed by a newline as body. -/
theorem C3_deny_response (p : Pipeline) (w : Sink) (r : Req)
    (pre rest : List AuthorizerFunc) (af : AuthorizerFunc) (ws1 ws2 : WState)
    (e : String) (code : Nat) (msg : String)
    (h' : UserHandlerFunc) (ms' : List PostResponseFunc)
    (hsplit : p.authorizers = pre ++ af :: rest)
    (hpre : runAuthorizers pre ⟨p.respBytes, w⟩ r = (ws1, none))
    (hdeny : af ws1 r = (ws2, (some e, code, msg)))
    (hplan : ws2.sink.failPlan = []) :
    HandleFunc { p with userHandler := h', respMonitors := ms' } w r
      = ({ p with userHandler := h', respMonitors := ms', respBytes := ws2.respBytes },
         httpError ws2.sink (if msg = "" then e else msg) code,
         [authFailLog e])
    ∧ (httpError ws2.sink (if msg = "" then e else msg) code).body
        = ws2.sink.body ++ ((if msg = "" then e else msg) ++ "\n")
    ∧ (httpError ws2.sink (if msg = "" then e else msg) code).statusCalls
        = ws2.sink.statusCalls ++ [code] := by
  have hrun : runAuthorizers
      ({ p with userHandler := h', respMonitors := ms' } : Pipeline).authorizers
      ⟨({ p with userHandler := h', respMonitors := ms' } : Pipeline).respBytes, w⟩ r
      = (ws2, some ((if msg = "" then e else msg), code, e)) := by
    show runAuthorizers p.authorizers ⟨p.respBytes, w⟩ r = _
    rw [hsplit]
    exact runAuthorizers_deny_append pre rest af _ ws1 ws2 r e code msg hpre hdeny
  exact ⟨HandleFunc_deny _ w r ws2 _ code e hrun,
    (httpError_ok ws2.sink _ code hplan).1,
    (httpError_ok ws2.sink _ code hplan).2⟩

/-- Witness for C3_deny_response at the concrete denying pipeline. -/
theorem C3_deny_witness :
    HandleFunc pC3 emptySink 0
      = (pC3, httpError emptySink "m" 401, [authFailLog "cause"]) := by
  have h := C3_deny_response pC3 emptySink 0 [] [] denyAuthM ⟨[], emptySink⟩ ⟨[], emptySink⟩
      "cause" 401 "m" hNop [] rfl rfl rfl rfl
  exact h.1

/-- Claim C4: authorizers are registered in order (construction-time first,
then each WithPre argument in call order), and the chain short-circuits: with
authorizers A then B, when A denies the chain's result is A's outcome for
every B — B is never invoked. -/
theorem C4_order_shortcircuit (h : UserHandlerFunc) (a0 : AuthorizerFunc)
    (mo : Option PostResponseFunc) (as : List AuthorizerFunc)
    (A B : AuthorizerFunc) (ws ws' : WState) (r : Req)
    (e : String) (code : Nat) (msg : String)
    (hA : A ws r = (ws', (some e, code, msg))) :
    (List.foldl (fun q a => WithPre q (some a)) (New h (some a0) mo) as).authorizers
      = a0 :: as
    ∧ runAuthorizers [A, B] ws r = (ws', some ((if msg = "" then e else msg), code, e)) := by
  constructor
  · rw [withPre_foldl]
    rfl
  · rw [runAuthorizers, hA]

/-- Witness for C4_order_shortcircuit at concrete authorizers. -/
theorem C4_witness :
    (List.foldl (fun q a => WithPre q (some a))
        (New hNop (some denyAuthM) none) [allowAuth]).authorizers
      = denyAuthM :: [allowAuth]
    ∧ runAuthorizers [denyAuthM, allowAuth] ⟨[], emptySink⟩ 0
      = (⟨[], emptySink⟩, some ("m", 401, "cause")) := by
  have h := C4_order_shortcircuit hNop denyAuthM none [allowAuth] denyAuthM allowAuth
      ⟨[], emptySink⟩ ⟨[], emptySink⟩ 0 "cause" 401 "m" rfl
  exact h

/-- Claim C5: Write appends its argument as exactly one chunk at the end of
the Captured Response, leaves the earlier chunks (and the sink) unchanged,
and returns the chunk length with a nil error. -/
theorem C5_Write_appends (ws : WState) (b : Chunk) :
    (Write ws b).1.respBytes = ws.respBytes ++ [b]
    ∧ (Write ws b).1.respBytes.take ws.respBytes.length = ws.respBytes
    ∧ (Write ws b).1.sink = ws.sink
    ∧ (Write ws b).2 = (b.length, none) := by
  refine ⟨rfl, ?_, rfl, rfl⟩
  rw [show (Write ws b).1.respBytes = ws.respBytes ++ [b] from rfl]
  exact List.take_left ws.respBytes [b]

end Ihandler
namespace Ihandler

/-- Claim C6: once the authorizer chain allows, HandleFunc is exactly
handler, then the left fold of the registered monitors in registration order
(each applied exactly once, none able to stop a later one), then the flush of
the post-monitor chunks; the fold factors through any split of the monitor
list, and every monitor whose predecessors preserve the chunk buffer is
handed exactly the chunk sequence the handler wrote. -/
theorem C6_monitor_chain (p : Pipeline) (w : Sink) (r : Req) (ws1 : WState)
    (ms1 ms2 pre post : List PostResponseFunc) (m : PostResponseFunc)
    (hallow : runAuthorizers p.authorizers ⟨p.respBytes, w⟩ r = (ws1, none))
    (hsp1 : p.respMonitors = ms1 ++ ms2)
    (hsp2 : p.respMonitors = pre ++ m :: post)
    (hpres : ∀ mm ∈ pre, ∀ st, (mm st r).respBytes = st.respBytes) :
    HandleFunc p w r
      = ({ p with respBytes := (runMonitors p.respMonitors (p.userHandler ws1 r) r).respBytes },
         (flushChunks (runMonitors p.respMonitors (p.userHandler ws1 r) r).sink []
            (runMonitors p.respMonitors (p.userHandler ws1 r) r).respBytes).1,
         (flushChunks (runMonitors p.respMonitors (p.userHandler ws1 r) r).sink []
            (runMonitors p.respMonitors (p.userHandler ws1 r) r).respBytes).2)
    ∧ runMonitors p.respMonitors (p.userHandler ws1 r) r
        = runMonitors ms2 (runMonitors ms1 (p.userHandler ws1 r) r) r
    ∧ runMonitors p.respMonitors (p.userHandler ws1 r) r
        = runMonitors (m :: post) (runMonitors pre (p.userHandler ws1 r) r) r
    ∧ (runMonitors pre (p.userHandler ws1 r) r).respBytes = (p.userHandler ws1 r).respBytes := by
  refine ⟨HandleFunc_allow p w r ws1 hallow, ?_, ?_, runMonitors_preserve pre _ r hpres⟩
  · rw [hsp1]
    simp [runMonitors, List.foldl_append]
  · rw [hsp2]
    simp [runMonitors, List.foldl_append]

/-- Witness for C6_monitor_chain on a two-monitor pipeline. -/
theorem C6_witness :
    HandleFunc pC6 emptySink 0
      = ({ pC6 with respBytes := ["hi"] },
         { headers := [("X-Seen", "1"), ("X-Seen", "2")], statusCalls := [],
           body := "hi", failPlan := [] },
         []) := by
  have h := C6_monitor_chain pC6 emptySink 0 ⟨[], emptySink⟩ [monHdr1] [monHdr2]
      [monHdr1] [] monHdr2 rfl rfl rfl
      (by intro mm hmm st; simp at hmm; subst hmm; rfl)
  exact h.1

/-- Claim C7: the flush loop writes the captured chunks one at a time in
sequence order; when the sink write of some chunk fails, the chunks before it
are on the wire, the failing chunk and all later chunks are not written (the
result does not depend on them), exactly one failure line is logged, and the
loop returns. -/
theorem C7_flush_stops_on_error (cs1 : List Chunk) :
    ∀ (s : Sink) (lg : List String) (cs2 : List Chunk) (c : Chunk) (plan : List Bool),
    s.failPlan = List.replicate cs1.length false ++ true :: plan →
    flushChunks s lg (cs1 ++ c :: cs2)
      = ({ s with body := s.body ++ concatChunks cs1, failPlan := plan },
         lg ++ [flushFailLog 0 sinkWriteErr]) := by
  induction cs1 with
  | nil =>
    intro s lg cs2 c plan hplan
    simp at hplan
    rw [List.nil_append, flushChunks, Sink.write, hplan]
    simp [concatChunks]
  | cons d cs1 ih =>
    intro s lg cs2 c plan hplan
    simp [List.replicate_succ] at hplan
    rw [List.cons_append, flushChunks, Sink.write, hplan]
    simp only []
    rw [ih _ lg cs2 c plan (by simp)]
    simp [concatChunks, String.append_assoc]

/-- Witness for C7_flush_stops_on_error: three chunks, second write fails. -/
theorem C7_witness :
    flushChunks failSink [] ["aa", "bb", "cc"]
      = ({ headers := [], statusCalls := [], body := "aa", failPlan := [] },
         [flushFailLog 0 sinkWriteErr]) := by
  have h := C7_flush_stops_on_error ["aa"] failSink [] ["cc"] "bb" [] rfl
  exact h

/-- Claim C8: Header, WriteHeader, SetCookie and AddHeader all act directly
on the bound real sink and never touch the Captured Response chunks; Header
returns the sink's own header collection, and AddHeader (like SetCookie)
appends to it without removing any existing value. -/
theorem C8_passthrough (ws : WState) (code : Nat) (ck name v : String) :
    Header ws = ws.sink.headers
    ∧ (WriteHeader ws code).respBytes = ws.respBytes
    ∧ (WriteHeader ws code).sink.statusCalls = ws.sink.statusCalls ++ [code]
    ∧ (WriteHeader ws code).sink.headers = ws.sink.headers
    ∧ (WriteHeader ws code).sink.body = ws.sink.body
    ∧ (SetCookie ws ck).respBytes = ws.respBytes
    ∧ (SetCookie ws ck).sink.headers
        = (if ck = "" then ws.sink.headers else ws.sink.headers ++ [("Set-Cookie", ck)])
    ∧ (SetCookie ws ck).sink.body = ws.sink.body
    ∧ (AddHeader ws name v).respBytes = ws.respBytes
    ∧ (AddHeader ws name v).sink.headers = ws.sink.headers ++ [(name, v)]
    ∧ (AddHeader ws name v).sink.body = ws.sink.body := by
  refine ⟨rfl, rfl, rfl, rfl, rfl, ?_, ?_, ?_, rfl, rfl, rfl⟩ <;>
    by_cases hc : ck = "" <;> simp [SetCookie, hc, hdrAdd]

/-- Claim C9: the flush delivers the chunk sequence as it stands after the
monitors ran; a monitor that appends a chunk through the live respBytes
pointer gets that chunk delivered to the client after the handler's chunks,
and it stays in the pipeline's buffer. -/
theorem C9_monitor_mutation_delivered (h : UserHandlerFunc) (c : Chunk) (w : Sink) (r : Req)
    (hplan : (h ⟨[], w⟩ r).sink.failPlan = []) :
    (HandleFunc (WithPost (New h none none) (some (appendChunkMon c))) w r).1.respBytes
        = (h ⟨[], w⟩ r).respBytes ++ [c]
    ∧ (HandleFunc (WithPost (New h none none) (some (appendChunkMon c))) w r).2.1.body
        = (h ⟨[], w⟩ r).sink.body ++ concatChunks ((h ⟨[], w⟩ r).respBytes ++ [c]) := by
  refine ⟨rfl, ?_⟩
  show (flushChunks (h ⟨[], w⟩ r).sink [] ((h ⟨[], w⟩ r).respBytes ++ [c])).1.body = _
  rw [flushChunks_ok ((h ⟨[], w⟩ r).respBytes ++ [c]) (h ⟨[], w⟩ r).sink [] hplan]

/-- Witness for C9_monitor_mutation_delivered: handler writes hi, monitor
appends mon, client receives himon. -/
theorem C9_witness :
    (HandleFunc (WithPost (New hHello none none) (some (appendChunkMon "mon")))
        emptySink 0).1.respBytes = ["hi", "mon"]
    ∧ (HandleFunc (WithPost (New hHello none none) (some (appendChunkMon "mon")))
        emptySink 0).2.1.body = "himon" := by
  have h := C9_monitor_mutation_delivered hHello "mon" emptySink 0 rfl
  exact h

/-- Claim C10: registering a nil callback is a no-op that returns the same
pipeline, and New with a nil authorizer or nil monitor produces an empty
corresponding chain. -/
theorem C10_nil_registration (p : Pipeline) (h : UserHandlerFunc)
    (ao : Option AuthorizerFunc) (mo : Option PostResponseFunc) :
    WithPre p none = p
    ∧ WithPost p none = p
    ∧ (New h none mo).authorizers = []
    ∧ (New h ao none).respMonitors = [] :=
  ⟨rfl, rfl, rfl, rfl⟩

end Ihandler
